import Mathlib

/-!
Verification of the realclock repository: the offset sampler and aggregator
(public/analog-clock.js second document, getServerTimeOffset and
getServerTimeOffsetAverage, mirrored by src/App.jsx), the synchronized clock
model of the AnalogClock custom element (setEpochMs, adjustByMs,
setTimezoneOffsetMinutes, syncToSystemTime, epochMsNow), the analogue
phase-correction mechanism (phaseCorrectAll), and the digital render tick.

JavaScript numbers are modelled as rationals; values that may be NaN or an
infinity are modelled by the JsNum type with JS arithmetic on it. Fallible
network interactions are modelled by an Except over an explicit fetch-result
type.
-/

/-- Models the source helper clamp = (v, min, max) => Math.min(max, Math.max(min, v))
from public/analog-clock.js. -/
def jsClamp (v lo hi : ℚ) : ℚ := min hi (max lo v)

/-- Truncation toward zero of a rational, as the JS ToIntegerOrInfinity
conversion (used by the Date millisecond constructor) performs on a finite
number. -/
def truncQ (q : ℚ) : ℤ := if 0 ≤ q then ⌊q⌋ else ⌈q⌉

/-- Models the JS remainder operator a % n on finite numbers (n nonzero):
the remainder has the sign of the dividend. -/
def jsMod (a n : ℚ) : ℚ := a - n * (truncQ (a / n) : ℚ)

/-- Models posMod = (a, n) => ((a % n) + n) % n from public/analog-clock.js. -/
def posMod (a n : ℚ) : ℚ := jsMod (jsMod a n + n) n

/-- A JS number: NaN, one of the two infinities, or a finite value. -/
inductive JsNum where
  | nan
  | posInf
  | negInf
  | num (q : ℚ)

/-- Models Number.isFinite on a JS number. -/
def JsNum.isFinite : JsNum → Bool
  | .num _ => true
  | _ => false

/-- The rational carried by a finite JS number (junk value 0 otherwise; only
read behind an isFinite guard, as in the source). -/
def JsNum.toQ : JsNum → ℚ
  | .num q => q
  | _ => 0

/-- JS addition, with NaN propagation and the usual infinity rules. -/
def JsNum.add : JsNum → JsNum → JsNum
  | .nan, _ => .nan
  | _, .nan => .nan
  | .posInf, .negInf => .nan
  | .negInf, .posInf => .nan
  | .posInf, _ => .posInf
  | _, .posInf => .posInf
  | .negInf, _ => .negInf
  | _, .negInf => .negInf
  | .num a, .num b => .num (a + b)

/-- JS subtraction, with NaN propagation and the usual infinity rules. -/
def JsNum.sub : JsNum → JsNum → JsNum
  | .nan, _ => .nan
  | _, .nan => .nan
  | .posInf, .posInf => .nan
  | .negInf, .negInf => .nan
  | .posInf, _ => .posInf
  | .negInf, _ => .negInf
  | .num _, .posInf => .negInf
  | .num _, .negInf => .posInf
  | .num a, .num b => .num (a - b)

/-- JS division of a number by a nonnegative integer count (the only shape of
division in the sources: sum divided by the array length). -/
def JsNum.divNat : JsNum → ℕ → JsNum
  | .nan, _ => .nan
  | .posInf, _ => .posInf
  | .negInf, _ => .negInf
  | .num q, 0 => if 0 < q then .posInf else if q < 0 then .negInf else .nan
  | .num q, n + 1 => .num (q / ((n : ℚ) + 1))

/-- Models Math.max on two JS numbers: NaN absorbs. -/
def jsMax : JsNum → JsNum → JsNum
  | .nan, _ => .nan
  | _, .nan => .nan
  | .posInf, _ => .posInf
  | _, .posInf => .posInf
  | .negInf, b => b
  | a, .negInf => a
  | .num a, .num b => .num (max a b)

/-- Models Math.min on two JS numbers: NaN absorbs. -/
def jsMin : JsNum → JsNum → JsNum
  | .nan, _ => .nan
  | _, .nan => .nan
  | .negInf, _ => .negInf
  | _, .negInf => .negInf
  | .posInf, b => b
  | a, .posInf => a
  | .num a, .num b => .num (min a b)

/-- Models Math.max(...xs): a left fold starting from the empty-argument
value -Infinity. -/
def jsMaxList (l : List JsNum) : JsNum := l.foldl jsMax .negInf

/-- Models Math.min(...xs): a left fold starting from the empty-argument
value +Infinity. -/
def jsMinList (l : List JsNum) : JsNum := l.foldl jsMin .posInf

/-- Models xs.reduce((a, b) => a + b, 0). -/
def jsSumList (l : List JsNum) : JsNum := l.foldl JsNum.add (.num 0)

/-- Error raised by one sampling round trip: the fetch promise rejected
(network failure), or response.json() threw (body not parsable as JSON). -/
inductive SampleError where
  | network
  | parse

/-- The body of an HTTP response as seen by response.json(): either not JSON
at all (the parse throws), or a JSON document whose datetime field parses via
new Date(json.datetime) to some epoch milliseconds value (none when the field
is missing or invalid, in which case getTime() yields NaN). -/
inductive JsonBody where
  | notJson
  | json (datetime : Option ℚ)

/-- Outcome of the fetch call: rejection, or a response carrying an HTTP
status code and a body. -/
inductive FetchResult where
  | networkFailure
  | response (status : ℕ) (body : JsonBody)

/-- Models getServerTimeOffset from public/analog-clock.js (and the identical
calculateTimeOffset / calculateServerTimeOffset of the App.jsx variants):
clientTimeStart and clientTimeEnd are the two Date.now() reads around the
round trip, r the outcome of the fetch. The HTTP status of a response is
never inspected by the source (there is no response.ok check), and a JSON
body without a usable datetime yields a NaN offset rather than an error. -/
def getServerTimeOffset (clientTimeStart clientTimeEnd : ℚ) (r : FetchResult) :
    Except SampleError JsNum :=
  match r with
  | .networkFailure => .error .network
  | .response _status body =>
    match body with
    | .notJson => .error .parse
    | .json datetime =>
      let roundTripTime := clientTimeEnd - clientTimeStart
      let serverUtc : JsNum :=
        match datetime with
        | none => .nan
        | some ms => .num ms
      .ok (serverUtc.sub (.num (clientTimeStart + roundTripTime / 2)))

/-- One iteration input of the sampling loop: the two local clock reads and
the fetch outcome of that round trip. -/
def SampleTrial : Type := ℚ × ℚ × FetchResult

/-- The sequential sampling loop of getServerTimeOffsetAverage: each sample
is awaited in order and the first error aborts the whole pass. -/
def collectOffsets : List SampleTrial → Except SampleError (List JsNum)
  | [] => .ok []
  | tr :: rest =>
    match getServerTimeOffset tr.1 tr.2.1 tr.2.2 with
    | .error e => .error e
    | .ok offset =>
      match collectOffsets rest with
      | .error e => .error e
      | .ok others => .ok (offset :: others)

/-- The aggregate returned by getServerTimeOffsetAverage. -/
structure OffsetStats where
  average : JsNum
  range : JsNum

/-- The aggregation step of getServerTimeOffsetAverage over the collected
samples: range = Math.max(...xs) - Math.min(...xs) and
average = xs.reduce((a, b) => a + b, 0) / xs.length. The trimming of the
lowest and highest sample is commented out in the source and hence absent. -/
def aggregateServerTimeOffsets (serverTimeOffsets : List JsNum) : OffsetStats :=
  { average := (jsSumList serverTimeOffsets).divNat serverTimeOffsets.length,
    range := (jsMaxList serverTimeOffsets).sub (jsMinList serverTimeOffsets) }

/-- Models getServerTimeOffsetAverage from public/analog-clock.js (and
calculateServerTimeOffsetStats of App.jsx): run the sampling loop over the
given trials, then aggregate; a failed sample propagates out. -/
def getServerTimeOffsetAverage (trials : List SampleTrial) :
    Except SampleError OffsetStats :=
  (collectOffsets trials).map aggregateServerTimeOffsets

/-- Whether an Except value is an error. -/
def isError {ε α : Type} : Except ε α → Bool
  | .error _ => true
  | .ok _ => false

/-- The time mode of the AnalogClock element: "system" or "manual". -/
inductive TimeMode where
  | system
  | manual

/-- The clock state owned by the AnalogClock element: the _time record
(mode, manualEpochMs, manualSetSystemNowMs, driftMs, tzOffsetMin) together
with the tickOffsetMs property of _props. -/
structure ClockState where
  mode : TimeMode
  manualEpochMs : ℚ
  manualSetSystemNowMs : ℚ
  driftMs : ℚ
  tzOffsetMin : ℚ
  tickOffsetMs : ℚ

/-- The state installed by the AnalogClock constructor: system mode, zero
drift and tick offset, and the negated system timezone offset of the host. -/
def initialClockState (systemTzOffsetMin : ℚ) : ClockState :=
  { mode := .system, manualEpochMs := 0, manualSetSystemNowMs := 0,
    driftMs := 0, tzOffsetMin := systemTzOffsetMin, tickOffsetMs := 0 }

/-- The tick offset resolution shared by syncToSystemTime and setEpochMs:
Number.isFinite(Number(tickOffsetMs)) ? Number(tickOffsetMs)
: this._props.tickOffsetMs, where a missing option is Number(undefined),
which is NaN. -/
def resolveTickOffset (tickOffsetMs : Option JsNum) (s : ClockState) : ℚ :=
  match tickOffsetMs with
  | some j => if j.isFinite then j.toQ else s.tickOffsetMs
  | none => s.tickOffsetMs

/-- Models syncToSystemTime from public/analog-clock.js: system mode, drift
reset, tick offset clamped to plus or minus 600000 ms. -/
def syncToSystemTime (opts : Option JsNum) (s : ClockState) : ClockState :=
  { s with mode := .system, driftMs := 0,
           tickOffsetMs := jsClamp (resolveTickOffset opts s) (-600000) 600000 }

/-- Models setEpochMs from public/analog-clock.js: a non-finite epoch is
rejected before any state is touched; otherwise manual mode is entered with
the given anchor, drift resets and the tick offset is clamped. -/
def setEpochMs (epochMs : JsNum) (opts : Option JsNum) (sysNow : ℚ)
    (s : ClockState) : ClockState :=
  if epochMs.isFinite then
    { s with mode := .manual, manualEpochMs := epochMs.toQ,
             manualSetSystemNowMs := sysNow, driftMs := 0,
             tickOffsetMs := jsClamp (resolveTickOffset opts s) (-600000) 600000 }
  else s

/-- Models adjustByMs from public/analog-clock.js: a non-finite delta is
rejected; otherwise it accumulates into driftMs. -/
def adjustByMs (deltaMs : JsNum) (s : ClockState) : ClockState :=
  if deltaMs.isFinite then { s with driftMs := s.driftMs + deltaMs.toQ } else s

/-- Models setTimezoneOffsetMinutes from public/analog-clock.js: a non-finite
value is rejected; otherwise the value is clamped to plus or minus 14 hours. -/
def setTimezoneOffsetMinutes (minutes : JsNum) (s : ClockState) : ClockState :=
  if minutes.isFinite then
    { s with tzOffsetMin := jsClamp minutes.toQ (-14 * 60) (14 * 60) }
  else s

/-- Models _epochMsNow from public/analog-clock.js, with sysNow standing for
the Date.now() read: the base epoch per mode, plus drift, plus tick offset. -/
def epochMsNow (s : ClockState) (sysNow : ℚ) : ℚ :=
  (match s.mode with
   | .system => sysNow
   | .manual => s.manualEpochMs + (sysNow - s.manualSetSystemNowMs))
  + s.driftMs + s.tickOffsetMs

/-- The three animation progress cursors (currentTime of the second, minute
and hour rotation animations), in milliseconds into each period. -/
structure AnimState where
  second : ℚ
  minute : ℚ
  hour : ℚ

/-- The passive correction threshold of _phaseCorrectAll. -/
def driftThreshMs : ℚ := 12

/-- Models _phaseCorrectAll from public/analog-clock.js: the target phase of
each hand is the corrected epoch shifted by the display timezone offset,
reduced modulo the period of the hand. A forced correction writes all three
cursors unconditionally; a passive one only overwrites a cursor whose
discrepancy from the target exceeds driftThreshMs. -/
def phaseCorrectAll (force : Bool) (s : ClockState) (sysNow : ℚ)
    (a : AnimState) : AnimState :=
  let t := epochMsNow s sysNow + s.tzOffsetMin * 60000
  let secPhase := posMod t 60000
  let minPhase := posMod t 3600000
  let hourPhase := posMod t 43200000
  if force then
    { second := secPhase, minute := minPhase, hour := hourPhase }
  else
    { second := if driftThreshMs < |a.second - secPhase| then secPhase else a.second,
      minute := if driftThreshMs < |a.minute - minPhase| then minPhase else a.minute,
      hour := if driftThreshMs < |a.hour - hourPhase| then hourPhase else a.hour }

/-- Local time in milliseconds for a host timezone offset given in whole
minutes, as used by the ECMAScript Date local accessors. -/
def localTimeMs (t tzOffsetMin : ℤ) : ℤ := t + tzOffsetMin * 60000

/-- Models Date.prototype.getMilliseconds of an epoch t under a host timezone
offset of tzOffsetMin whole minutes. -/
def dateGetMilliseconds (t tzOffsetMin : ℤ) : ℤ := localTimeMs t tzOffsetMin % 1000

/-- Models Date.prototype.getSeconds of an epoch t under a host timezone
offset of tzOffsetMin whole minutes. -/
def dateGetSeconds (t tzOffsetMin : ℤ) : ℤ :=
  localTimeMs t tzOffsetMin / 1000 % 60

/-- Models new Date(value).getTime() for a finite value within the Date
range: the value truncated toward zero to whole milliseconds. -/
def dateFromMs (q : ℚ) : ℤ := truncQ q

/-- The corrected current time of the digital clock variant: the local clock
read plus the aggregated server time offset. -/
def correctedNowDigital (nowMs : ℤ) (serverTimeOffset : ℚ) : ℚ :=
  (nowMs : ℚ) + serverTimeOffset

/-- The outputs of one iteration of the digital render interval:
synchronizedTime is the epoch displayed by the deferred update,
remainingMilliseconds the setTimeout delay of that update, highlight whether
the update renders the watch-sync highlight. -/
structure DigitalTick where
  synchronizedTime : ℤ
  remainingMilliseconds : ℤ
  highlight : Bool

/-- Models one run of the setInterval callback of main in the digital clock:
synchronizedTime = new Date(now + serverTimeOffset + 1000),
remainingMilliseconds = 1000 - synchronizedTime.getMilliseconds(), and the
update deferred by that remainder renders with
highlight = synchronizedTime.getSeconds() % 5 === 0. -/
def digitalTick (nowMs : ℤ) (serverTimeOffset : ℚ) (tzOffsetMin : ℤ) : DigitalTick :=
  let synchronizedTime := dateFromMs ((nowMs : ℚ) + serverTimeOffset + 1000)
  let remainingMilliseconds := 1000 - dateGetMilliseconds synchronizedTime tzOffsetMin
  let highlight := dateGetSeconds synchronizedTime tzOffsetMin % 5 == 0
  { synchronizedTime := synchronizedTime,
    remainingMilliseconds := remainingMilliseconds,
    highlight := highlight }

/-- The maximum of a nonempty batch of samples, head and tail given
separately (the aggregation never sees an empty batch). -/
def batchMax (x : ℚ) (xs : List ℚ) : ℚ := xs.foldl max x

/-- The minimum of a nonempty batch of samples. -/
def batchMin (x : ℚ) (xs : List ℚ) : ℚ := xs.foldl min x

/-- The arithmetic mean of a nonempty batch of samples. -/
def batchMean (x : ℚ) (xs : List ℚ) : ℚ := (x + xs.sum) / ((xs.length : ℚ) + 1)

theorem jsClamp_of_le {v lo hi : ℚ} (h1 : lo ≤ v) (h2 : v ≤ hi) : jsClamp v lo hi = v := by
  simp [jsClamp, max_eq_right h1, min_eq_right h2]

theorem truncQ_lt_add_one (q : ℚ) : (truncQ q : ℚ) < q + 1 := by
  unfold truncQ
  split
  · have := Int.floor_le q
    linarith
  · have := Int.ceil_lt_add_one q
    linarith

theorem sub_one_lt_truncQ (q : ℚ) : q - 1 < (truncQ q : ℚ) := by
  unfold truncQ
  split
  · exact Int.sub_one_lt_floor q
  · have := Int.le_ceil q
    linarith

theorem truncQ_of_nonneg {q : ℚ} (h : 0 ≤ q) : truncQ q = ⌊q⌋ := if_pos h

theorem neg_lt_jsMod {n : ℚ} (hn : 0 < n) (a : ℚ) : -n < jsMod a n := by
  have h1 : (truncQ (a / n) : ℚ) < a / n + 1 := truncQ_lt_add_one _
  have h2 : n * (truncQ (a / n) : ℚ) < n * (a / n + 1) := by
    exact mul_lt_mul_of_pos_left h1 hn
  have h3 : n * (a / n + 1) = a + n := by
    field_simp
  unfold jsMod
  linarith

theorem posMod_eq_floor (a n : ℚ) (hn : 0 < n) : posMod a n = a - n * ⌊a / n⌋ := by
  have hne : n ≠ 0 := ne_of_gt hn
  have hb : 0 < jsMod a n + n := by
    have := neg_lt_jsMod hn a
    linarith
  have hbn : 0 ≤ (jsMod a n + n) / n := le_of_lt (div_pos hb hn)
  have key : (jsMod a n + n) / n = a / n + ((1 - truncQ (a / n) : ℤ) : ℚ) := by
    unfold jsMod
    push_cast
    field_simp
    ring
  have jsMod_def : ∀ x m : ℚ, jsMod x m = x - m * (truncQ (x / m) : ℚ) := fun _ _ => rfl
  show jsMod (jsMod a n + n) n = a - n * ⌊a / n⌋
  rw [jsMod_def (jsMod a n + n) n, truncQ_of_nonneg hbn, key, Int.floor_add_int,
    jsMod_def a n]
  push_cast
  ring

theorem posMod_add_int_mul (a n : ℚ) (hn : 0 < n) (k : ℤ) :
    posMod (a + (k : ℚ) * n) n = posMod a n := by
  have hne : n ≠ 0 := ne_of_gt hn
  rw [posMod_eq_floor _ _ hn, posMod_eq_floor _ _ hn]
  have harg : (a + (k : ℚ) * n) / n = a / n + (k : ℚ) := by
    field_simp
  rw [harg, Int.floor_add_int]
  push_cast
  ring

theorem foldl_jsMax_map_num (xs : List ℚ) :
    ∀ a : ℚ, (xs.map JsNum.num).foldl jsMax (JsNum.num a) = JsNum.num (xs.foldl max a) := by
  induction xs with
  | nil => intro a; rfl
  | cons x xs ih => intro a; simpa using ih (max a x)

theorem foldl_jsMin_map_num (xs : List ℚ) :
    ∀ a : ℚ, (xs.map JsNum.num).foldl jsMin (JsNum.num a) = JsNum.num (xs.foldl min a) := by
  induction xs with
  | nil => intro a; rfl
  | cons x xs ih => intro a; simpa using ih (min a x)

theorem foldl_jsAdd_map_num (xs : List ℚ) :
    ∀ a : ℚ, (xs.map JsNum.num).foldl JsNum.add (JsNum.num a) = JsNum.num (a + xs.sum) := by
  induction xs with
  | nil => intro a; simp
  | cons x xs ih =>
    intro a
    simp only [List.map_cons, List.foldl_cons, List.sum_cons]
    have step : JsNum.add (JsNum.num a) (JsNum.num x) = JsNum.num (a + x) := rfl
    rw [step, ih (a + x), add_assoc]

theorem foldl_min_le_foldl_max (xs : List ℚ) :
    ∀ {a b : ℚ}, a ≤ b → xs.foldl min a ≤ xs.foldl max b := by
  induction xs with
  | nil => intro a b h; simpa using h
  | cons x xs ih =>
    intro a b h
    exact ih (le_trans (min_le_left a x) (le_trans h (le_max_left b x)))

theorem foldl_max_all_eq (xs : List ℚ) :
    ∀ v : ℚ, (∀ y ∈ xs, y = v) → xs.foldl max v = v := by
  induction xs with
  | nil => intro v _; rfl
  | cons x xs ih =>
    intro v h
    have hx : x = v := h x (List.mem_cons_self x xs)
    simp only [List.foldl_cons, hx, max_self]
    exact ih v fun y hy => h y (List.mem_cons_of_mem x hy)

theorem foldl_min_all_eq (xs : List ℚ) :
    ∀ v : ℚ, (∀ y ∈ xs, y = v) → xs.foldl min v = v := by
  induction xs with
  | nil => intro v _; rfl
  | cons x xs ih =>
    intro v h
    have hx : x = v := h x (List.mem_cons_self x xs)
    simp only [List.foldl_cons, hx, min_self]
    exact ih v fun y hy => h y (List.mem_cons_of_mem x hy)

theorem sum_all_eq (xs : List ℚ) (v : ℚ) (h : ∀ y ∈ xs, y = v) :
    xs.sum = (xs.length : ℚ) * v := by
  induction xs with
  | nil => simp
  | cons x xs ih =>
    have hx : x = v := h x (List.mem_cons_self x xs)
    have ht := ih fun y hy => h y (List.mem_cons_of_mem x hy)
    simp only [List.sum_cons, List.length_cons, hx, ht]
    push_cast
    ring

theorem foldl_adjustByMs (ds : List ℚ) :
    ∀ s : ClockState,
      ds.foldl (fun st d => adjustByMs (JsNum.num d) st) s
        = { s with driftMs := s.driftMs + ds.sum } := by
  induction ds with
  | nil => intro s; simp
  | cons d ds ih =>
    intro s
    simp only [List.foldl_cons, List.sum_cons]
    have step : adjustByMs (JsNum.num d) s = { s with driftMs := s.driftMs + d } := rfl
    rw [step, ih, add_assoc]

theorem collectOffsets_error (trials : List SampleTrial) :
    ∀ tr ∈ trials, (∃ e, getServerTimeOffset tr.1 tr.2.1 tr.2.2 = .error e) →
      ∃ e2, collectOffsets trials = .error e2 := by
  induction trials with
  | nil => intro tr htr; cases htr
  | cons hd tl ih =>
    intro tr htr hf
    obtain ⟨e, he⟩ := hf
    rcases List.mem_cons.mp htr with heq | htl
    · subst heq
      exact ⟨e, by simp [collectOffsets, he]⟩
    · cases h1 : getServerTimeOffset hd.1 hd.2.1 hd.2.2 with
      | error e1 => exact ⟨e1, by simp [collectOffsets, h1]⟩
      | ok v =>
        obtain ⟨e2, he2⟩ := ih tr htl ⟨e, he⟩
        exact ⟨e2, by simp [collectOffsets, h1, he2]⟩

/-- C1: for every response whose datetime field parses to an epoch value se,
the sampler returns exactly se - (t0 + (t1 - t0) / 2), where t0 and t1 are
the local clock reads around the round trip; the returned offset is positive
exactly when the estimated local instant at the temporal midpoint of the
round trip reads behind the server epoch. -/
theorem sampleOffset_midpoint_formula (t0 t1 se q : ℚ) (st : ℕ)
    (hq : getServerTimeOffset t0 t1 (.response st (.json (some se))) = .ok (.num q)) :
    getServerTimeOffset t0 t1 (.response st (.json (some se)))
      = .ok (.num (se - (t0 + (t1 - t0) / 2))) ∧
    (0 < q ↔ t0 + (t1 - t0) / 2 < se) := by
  have h1 : getServerTimeOffset t0 t1 (.response st (.json (some se)))
      = .ok (.num (se - (t0 + (t1 - t0) / 2))) := rfl
  have hq2 : se - (t0 + (t1 - t0) / 2) = q := by
    have h2 := h1.symm.trans hq
    simpa using h2
  refine ⟨h1, ?_⟩
  rw [← hq2]
  exact sub_pos

/-- Witness for C1 at t0 = 0, t1 = 10, server epoch 100 on an arbitrary
status, where the offset is 100 - 5 = 95. -/
theorem sampleOffset_midpoint_formula_witness :
    getServerTimeOffset 0 10 (.response 503 (.json (some 100)))
      = .ok (.num (100 - (0 + (10 - 0) / 2))) ∧
    (0 < (95 : ℚ) ↔ (0 : ℚ) + (10 - 0) / 2 < 100) :=
  sampleOffset_midpoint_formula 0 10 100 95 503
    (by norm_num [getServerTimeOffset, JsNum.sub])

/-- C2: over any nonempty batch of successfully collected samples, the
aggregation returns the arithmetic mean as average and max - min as range;
the range is nonnegative, and over a batch of identical samples the range is
0 and the average is the common value. -/
theorem estimateOffset_mean_range (x : ℚ) (xs : List ℚ) (trials : List SampleTrial)
    (h : collectOffsets trials = .ok ((x :: xs).map JsNum.num)) :
    getServerTimeOffsetAverage trials
      = .ok { average := .num (batchMean x xs),
              range := .num (batchMax x xs - batchMin x xs) } ∧
    0 ≤ batchMax x xs - batchMin x xs ∧
    ((∀ y ∈ xs, y = x) → batchMax x xs - batchMin x xs = 0 ∧ batchMean x xs = x) := by
  have hsum : jsSumList ((x :: xs).map JsNum.num) = JsNum.num (x + xs.sum) := by
    unfold jsSumList
    simp only [List.map_cons, List.foldl_cons]
    have step : JsNum.add (JsNum.num 0) (JsNum.num x) = JsNum.num (0 + x) := rfl
    rw [step, zero_add, foldl_jsAdd_map_num]
  have hmax : jsMaxList ((x :: xs).map JsNum.num) = JsNum.num (batchMax x xs) := by
    unfold jsMaxList batchMax
    simp only [List.map_cons, List.foldl_cons]
    have step : jsMax JsNum.negInf (JsNum.num x) = JsNum.num x := rfl
    rw [step, foldl_jsMax_map_num]
  have hmin : jsMinList ((x :: xs).map JsNum.num) = JsNum.num (batchMin x xs) := by
    unfold jsMinList batchMin
    simp only [List.map_cons, List.foldl_cons]
    have step : jsMin JsNum.posInf (JsNum.num x) = JsNum.num x := rfl
    rw [step, foldl_jsMin_map_num]
  have hlen : ((x :: xs).map JsNum.num).length = xs.length + 1 := by simp
  refine ⟨?_, ?_, ?_⟩
  · unfold getServerTimeOffsetAverage
    rw [h]
    show Except.ok (aggregateServerTimeOffsets ((x :: xs).map JsNum.num)) = _
    unfold aggregateServerTimeOffsets
    rw [hsum, hmax, hmin, hlen]
    simp only [JsNum.divNat, JsNum.sub, batchMean]
  · exact sub_nonneg.mpr (foldl_min_le_foldl_max xs (le_refl x))
  · intro hall
    have hmx : batchMax x xs = x := foldl_max_all_eq xs x hall
    have hmn : batchMin x xs = x := foldl_min_all_eq xs x hall
    have hs : xs.sum = (xs.length : ℚ) * x := sum_all_eq xs x hall
    refine ⟨by rw [hmx, hmn, sub_self], ?_⟩
    have hlen0 : (xs.length : ℚ) + 1 ≠ 0 := by positivity
    unfold batchMean
    rw [hs, div_eq_iff hlen0]
    ring

/-- Witness for C2 on a three-sample batch of identical offsets 4: the
average is the common value and the range is zero. -/
theorem estimateOffset_mean_range_witness :
    getServerTimeOffsetAverage
      [(0, 0, .response 200 (.json (some 4))), (0, 0, .response 200 (.json (some 4))),
       (0, 0, .response 200 (.json (some 4)))]
      = .ok { average := .num (batchMean 4 [4, 4]),
              range := .num (batchMax 4 [4, 4] - batchMin 4 [4, 4]) } ∧
    0 ≤ batchMax 4 [4, 4] - batchMin 4 [4, 4] ∧
    (batchMax 4 [4, 4] - batchMin 4 [4, 4] = 0 ∧ batchMean 4 [4, 4] = 4) := by
  have C := estimateOffset_mean_range 4 [4, 4]
    [(0, 0, .response 200 (.json (some 4))), (0, 0, .response 200 (.json (some 4))),
     (0, 0, .response 200 (.json (some 4)))]
    (by norm_num [collectOffsets, getServerTimeOffset, JsNum.sub])
  exact ⟨C.1, C.2.1, C.2.2 (by simp)⟩

/-- C3 counterexample: a 500 response whose JSON body carries a valid
datetime yields a successful sample with a normal numeric offset, not a
failure; the HTTP status of the response is never checked by the sampler. -/
theorem sampleOffset_non2xx_no_failure :
    getServerTimeOffset 0 10 (.response 500 (.json (some 100))) = .ok (.num 95) ∧
    isError (getServerTimeOffset 0 10 (.response 500 (.json (some 100)))) = false := by
  refine ⟨?_, rfl⟩
  norm_num [getServerTimeOffset, JsNum.sub]

/-- C3 (amended): the sampler fails on a network failure and on a response
body that is not parsable as JSON (a non-2xx status alone is not a failure,
and a JSON body without a datetime yields a NaN sample instead of failing);
and whenever any one of the samples of a batch fails, at whatever position,
the whole aggregation fails with no partial average. -/
theorem sampleOffset_failure_modes (t0 t1 : ℚ) (st : ℕ)
    (trials : List SampleTrial) (tr : SampleTrial) (htr : tr ∈ trials)
    (e : SampleError) (he : getServerTimeOffset tr.1 tr.2.1 tr.2.2 = .error e) :
    getServerTimeOffset t0 t1 .networkFailure = .error .network ∧
    getServerTimeOffset t0 t1 (.response st .notJson) = .error .parse ∧
    isError (getServerTimeOffsetAverage trials) = true := by
  refine ⟨rfl, rfl, ?_⟩
  obtain ⟨e2, he2⟩ := collectOffsets_error trials tr htr ⟨e, he⟩
  unfold getServerTimeOffsetAverage
  rw [he2]
  rfl

/-- Witness for C3: a batch whose middle sample suffers a network failure
makes the whole aggregation fail. -/
theorem sampleOffset_failure_modes_witness :
    getServerTimeOffset 0 4 .networkFailure = .error .network ∧
    getServerTimeOffset 0 4 (.response 200 .notJson) = .error .parse ∧
    isError (getServerTimeOffsetAverage
      [(0, 0, .response 200 (.json (some 1))), (0, 2, .networkFailure),
       (0, 0, .response 200 (.json (some 2)))]) = true :=
  sampleOffset_failure_modes 0 4 200
    [(0, 0, .response 200 (.json (some 1))), (0, 2, .networkFailure),
     (0, 0, .response 200 (.json (some 2)))]
    (0, 2, .networkFailure) (by simp) SampleError.network rfl

/-- C4 counterexample: syncToSystemTime clamps the installed offset to
600000 ms, so with offsetMs = 700000 and no adjustments the corrected time
is not localNow + 700000. -/
theorem syncToSystemTime_offset_clamped :
    epochMsNow (syncToSystemTime (some (JsNum.num 700000)) (initialClockState 0)) 0
      ≠ 0 + 700000 + ([] : List ℚ).sum := by
  have h : epochMsNow (syncToSystemTime (some (JsNum.num 700000)) (initialClockState 0)) 0
      = jsClamp 700000 (-600000) 600000 := by
    simp [epochMsNow, syncToSystemTime, resolveTickOffset, initialClockState,
      JsNum.isFinite, JsNum.toQ]
  rw [h, jsClamp]
  rw [max_eq_right (by norm_num), min_eq_left (by norm_num)]
  norm_num

/-- C4 (amended): in system mode, after syncToSystemTime with offset o
followed by any finite sequence of finite adjustByMs deltas, the corrected
time is localNow plus the clamp of o to the range -600000..600000 plus the
sum of the deltas; when o lies within that range this is exactly
localNow + o + sum of deltas, as the claim states. -/
theorem correctedNow_system_drift_sum (s : ClockState) (sysNow o : ℚ) (ds : List ℚ) :
    epochMsNow
      (ds.foldl (fun st d => adjustByMs (JsNum.num d) st)
        (syncToSystemTime (some (JsNum.num o)) s)) sysNow
      = sysNow + jsClamp o (-600000) 600000 + ds.sum ∧
    (|o| ≤ 600000 →
      epochMsNow
        (ds.foldl (fun st d => adjustByMs (JsNum.num d) st)
          (syncToSystemTime (some (JsNum.num o)) s)) sysNow
        = sysNow + o + ds.sum) := by
  have h : epochMsNow
      (ds.foldl (fun st d => adjustByMs (JsNum.num d) st)
        (syncToSystemTime (some (JsNum.num o)) s)) sysNow
      = sysNow + jsClamp o (-600000) 600000 + ds.sum := by
    rw [foldl_adjustByMs]
    simp [epochMsNow, syncToSystemTime, resolveTickOffset, JsNum.isFinite, JsNum.toQ]
    ring
  refine ⟨h, fun habs => ?_⟩
  obtain ⟨h1, h2⟩ := abs_le.mp habs
  rw [h, jsClamp_of_le h1 h2]

/-- Witness for C4 with the in-range offset 250 and adjustments 40, -15 on
top of an arbitrary starting state. -/
theorem correctedNow_system_drift_sum_witness :
    epochMsNow
      (([40, -15] : List ℚ).foldl (fun st d => adjustByMs (JsNum.num d) st)
        (syncToSystemTime (some (JsNum.num 250)) (initialClockState 600))) 1000
      = 1000 + 250 + ([40, -15] : List ℚ).sum :=
  (correctedNow_system_drift_sum (initialClockState 600) 1000 250 [40, -15]).2
    (by norm_num)

/-- C5 counterexample: with a stored tick offset of 500 ms, setEpochMs
followed by an immediate read yields E + 500, not E. -/
theorem setEpoch_tickOffset_counterexample :
    epochMsNow
      (setEpochMs (JsNum.num 1000000) none 5000
        (syncToSystemTime (some (JsNum.num 500)) (initialClockState 0))) 5000
      ≠ 1000000 := by
  have hclamp : jsClamp 500 (-600000) 600000 = 500 := by
    rw [jsClamp, max_eq_right (by norm_num), min_eq_right (by norm_num)]
  have h : epochMsNow
      (setEpochMs (JsNum.num 1000000) none 5000
        (syncToSystemTime (some (JsNum.num 500)) (initialClockState 0))) 5000
      = 1000000 + (5000 - 5000) + 0 + jsClamp (jsClamp 500 (-600000) 600000) (-600000) 600000 := by
    simp [epochMsNow, setEpochMs, syncToSystemTime, resolveTickOffset,
      initialClockState, JsNum.isFinite, JsNum.toQ]
  rw [h, hclamp, hclamp]
  norm_num

/-- C5 (amended): provided the stored tickOffsetMs is zero (the constructor
default), setEpochMs with a finite epoch E followed by an immediate read of
the corrected time yields exactly E, and a read d milliseconds of local time
later yields E + d: manual mode keeps advancing in real time from the
anchor. In general the reads yield E + tickOffsetMs and E + d + tickOffsetMs. -/
theorem setEpoch_correctedNow (s : ClockState) (E sysNow d : ℚ)
    (h : s.tickOffsetMs = 0) :
    epochMsNow (setEpochMs (JsNum.num E) none sysNow s) sysNow = E ∧
    epochMsNow (setEpochMs (JsNum.num E) none sysNow s) (sysNow + d) = E + d := by
  have hclamp : jsClamp (0 : ℚ) (-600000) 600000 = 0 := by
    rw [jsClamp, max_eq_right (by norm_num), min_eq_right (by norm_num)]
  constructor
  · simp [epochMsNow, setEpochMs, resolveTickOffset, JsNum.isFinite, JsNum.toQ, h, hclamp]
  · simp [epochMsNow, setEpochMs, resolveTickOffset, JsNum.isFinite, JsNum.toQ, h, hclamp]

/-- Witness for C5 at E = 42 from the freshly constructed state, read again
5000 ms later. -/
theorem setEpoch_correctedNow_witness :
    epochMsNow (setEpochMs (JsNum.num 42) none 10 (initialClockState 135)) 10 = 42 ∧
    epochMsNow (setEpochMs (JsNum.num 42) none 10 (initialClockState 135)) (10 + 5000)
      = 42 + 5000 :=
  setEpoch_correctedNow (initialClockState 135) 42 10 5000 rfl

/-- C9: for every finite minutes value m, setTimezoneOffsetMinutes stores
exactly the clamp of m to -840..840 as the display timezone offset, and the
stored timezone offset never contributes to the corrected time: epochMsNow
is invariant under any change of tzOffsetMin. -/
theorem setTimezoneOffset_display_only (m x sysNow : ℚ) (s : ClockState) :
    setTimezoneOffsetMinutes (JsNum.num m) s
      = { s with tzOffsetMin := jsClamp m (-840) 840 } ∧
    epochMsNow { s with tzOffsetMin := x } sysNow = epochMsNow s sysNow := by
  constructor
  · show (if (JsNum.num m).isFinite then
        { s with tzOffsetMin := jsClamp (JsNum.num m).toQ (-14 * 60) (14 * 60) }
      else s) = { s with tzOffsetMin := jsClamp m (-840) 840 }
    norm_num [JsNum.isFinite, JsNum.toQ]
  · rfl

/-- C10: a non-finite argument (NaN or either infinity) makes each of
setEpochMs, adjustByMs and setTimezoneOffsetMinutes return with the clock
state untouched in every field: the invalid value is rejected, not clamped. -/
theorem nonfinite_setters_noop (j : JsNum) (h : j.isFinite = false)
    (opts : Option JsNum) (sysNow : ℚ) (s : ClockState) :
    setEpochMs j opts sysNow s = s ∧
    adjustByMs j s = s ∧
    setTimezoneOffsetMinutes j s = s := by
  refine ⟨?_, ?_, ?_⟩
  · simp [setEpochMs, h]
  · simp [adjustByMs, h]
  · simp [setTimezoneOffsetMinutes, h]

/-- Witness for C10: NaN, positive infinity and negative infinity are all
rejected without touching the state. -/
theorem nonfinite_setters_noop_witness :
    setEpochMs JsNum.nan none 5 (initialClockState 0) = initialClockState 0 ∧
    adjustByMs JsNum.posInf (initialClockState 0) = initialClockState 0 ∧
    setTimezoneOffsetMinutes JsNum.negInf (initialClockState 0) = initialClockState 0 :=
  ⟨(nonfinite_setters_noop JsNum.nan rfl none 5 (initialClockState 0)).1,
   (nonfinite_setters_noop JsNum.posInf rfl none 5 (initialClockState 0)).2.1,
   (nonfinite_setters_noop JsNum.negInf rfl none 5 (initialClockState 0)).2.2⟩

theorem dateGetMilliseconds_tz (t tz : ℤ) : dateGetMilliseconds t tz = t % 1000 := by
  unfold dateGetMilliseconds localTimeMs
  have h : t + tz * 60000 = t + tz * 60 * 1000 := by ring
  rw [h]
  exact Int.add_mul_emod_self

theorem dateGetSeconds_tz (t tz : ℤ) : dateGetSeconds t tz = t / 1000 % 60 := by
  unfold dateGetSeconds localTimeMs
  have h : t + tz * 60000 = t + tz * 60 * 1000 := by ring
  rw [h, Int.add_mul_ediv_right t (tz * 60) (by norm_num)]
  exact Int.add_mul_emod_self

/-- C6 counterexample: after setTimezoneOffsetMinutes with the accepted
finite value 1/2 (half a minute), the forced second-hand cursor is 30000
while the corrected time modulo 60000 is 0: the cursor does not equal
correctedTimeMs mod 60000 across every timezone offset change. -/
theorem secondCursor_fractional_tz :
    (phaseCorrectAll true (setTimezoneOffsetMinutes (JsNum.num (1/2)) (initialClockState 0)) 0
        ⟨0, 0, 0⟩).second
      ≠ posMod (epochMsNow (setTimezoneOffsetMinutes (JsNum.num (1/2)) (initialClockState 0)) 0)
          60000 := by
  have htz : (setTimezoneOffsetMinutes (JsNum.num (1/2)) (initialClockState 0)).tzOffsetMin
      = 1/2 := by
    simp only [setTimezoneOffsetMinutes, JsNum.isFinite, JsNum.toQ, if_true]
    exact jsClamp_of_le (by norm_num) (by norm_num)
  have hepoch : epochMsNow (setTimezoneOffsetMinutes (JsNum.num (1/2)) (initialClockState 0)) 0
      = 0 := by
    simp [epochMsNow, setTimezoneOffsetMinutes, initialClockState, JsNum.isFinite, JsNum.toQ]
  have hsec : (phaseCorrectAll true (setTimezoneOffsetMinutes (JsNum.num (1/2))
        (initialClockState 0)) 0 ⟨0, 0, 0⟩).second
      = posMod (0 + (1/2 : ℚ) * 60000) 60000 := by
    show posMod (epochMsNow (setTimezoneOffsetMinutes (JsNum.num (1/2)) (initialClockState 0)) 0
        + (setTimezoneOffsetMinutes (JsNum.num (1/2)) (initialClockState 0)).tzOffsetMin * 60000)
        60000 = _
    rw [hepoch, htz]
  rw [hsec, hepoch]
  have h1 : posMod (0 + (1/2 : ℚ) * 60000) 60000 = 30000 := by
    rw [posMod_eq_floor _ _ (by norm_num)]
    norm_num
  have h2 : posMod (0 : ℚ) 60000 = 0 := by
    rw [posMod_eq_floor _ _ (by norm_num)]
    norm_num
  rw [h1, h2]
  norm_num

/-- C6 (amended): whenever the timezone display offset is a whole number of
minutes, any write of the second-hand cursor (forced, or passive when it
changes the cursor) installs exactly correctedTimeMs mod 60000; with the
offset set to -300 the forced hour cursor is posMod(epoch - 300 * 60000,
43200000); and a forced correction is a function of the corrected time
alone, independent of the previous cursors, never advanced by accumulated
deltas. (As stated the claim fails for a fractional-minute offset, which the
setter accepts.) -/
theorem phaseCursor_absolute_recompute (s : ClockState) (sysNow : ℚ) (a b : AnimState)
    (k : ℤ) (hk : s.tzOffsetMin = (k : ℚ)) :
    (phaseCorrectAll true s sysNow a).second = posMod (epochMsNow s sysNow) 60000 ∧
    ((phaseCorrectAll false s sysNow a).second ≠ a.second →
      (phaseCorrectAll false s sysNow a).second = posMod (epochMsNow s sysNow) 60000) ∧
    (s.tzOffsetMin = -300 →
      (phaseCorrectAll true s sysNow a).hour
        = posMod (epochMsNow s sysNow - 300 * 60000) 43200000) ∧
    phaseCorrectAll true s sysNow a = phaseCorrectAll true s sysNow b := by
  have hshift : posMod (epochMsNow s sysNow + s.tzOffsetMin * 60000) 60000
      = posMod (epochMsNow s sysNow) 60000 := by
    rw [hk]
    exact posMod_add_int_mul _ _ (by norm_num) k
  refine ⟨hshift, ?_, ?_, rfl⟩
  · intro hne
    have hdef : (phaseCorrectAll false s sysNow a).second
        = if driftThreshMs
            < |a.second - posMod (epochMsNow s sysNow + s.tzOffsetMin * 60000) 60000|
          then posMod (epochMsNow s sysNow + s.tzOffsetMin * 60000) 60000
          else a.second := rfl
    by_cases hc : driftThreshMs
        < |a.second - posMod (epochMsNow s sysNow + s.tzOffsetMin * 60000) 60000|
    · rw [hdef, if_pos hc]
      exact hshift
    · exact absurd (by rw [hdef, if_neg hc]) hne
  · intro h300
    show posMod (epochMsNow s sysNow + s.tzOffsetMin * 60000) 43200000 = _
    rw [h300]
    congr 1
    ring

/-- Witness for C6 with the timezone offset set to -300 minutes. -/
theorem phaseCursor_absolute_recompute_witness :
    (phaseCorrectAll true (setTimezoneOffsetMinutes (JsNum.num (-300)) (initialClockState 0)) 0
        ⟨1, 2, 3⟩).second
      = posMod (epochMsNow (setTimezoneOffsetMinutes (JsNum.num (-300)) (initialClockState 0)) 0)
          60000 ∧
    (phaseCorrectAll true (setTimezoneOffsetMinutes (JsNum.num (-300)) (initialClockState 0)) 0
        ⟨1, 2, 3⟩).hour
      = posMod (epochMsNow (setTimezoneOffsetMinutes (JsNum.num (-300)) (initialClockState 0)) 0
          - 300 * 60000) 43200000 ∧
    phaseCorrectAll true (setTimezoneOffsetMinutes (JsNum.num (-300)) (initialClockState 0)) 0
        ⟨1, 2, 3⟩
      = phaseCorrectAll true (setTimezoneOffsetMinutes (JsNum.num (-300)) (initialClockState 0)) 0
        ⟨4, 5, 6⟩ := by
  have htz : (setTimezoneOffsetMinutes (JsNum.num (-300)) (initialClockState 0)).tzOffsetMin
      = (-300 : ℚ) := by
    simp only [setTimezoneOffsetMinutes, JsNum.isFinite, JsNum.toQ, if_true]
    exact jsClamp_of_le (by norm_num) (by norm_num)
  have hk : (setTimezoneOffsetMinutes (JsNum.num (-300)) (initialClockState 0)).tzOffsetMin
      = ((-300 : ℤ) : ℚ) := by
    rw [htz]
    norm_num
  have C := phaseCursor_absolute_recompute
    (setTimezoneOffsetMinutes (JsNum.num (-300)) (initialClockState 0)) 0
    ⟨1, 2, 3⟩ ⟨4, 5, 6⟩ (-300) hk
  exact ⟨C.1, C.2.2.1 htz, C.2.2.2⟩

/-- C7: a passive phase correction leaves every cursor whose discrepancy
from the freshly computed target phase is at most the 12 ms threshold
unchanged, hand by hand, while a forced phase correction always writes the
target phase into every cursor regardless of the discrepancy. -/
theorem phaseCorrect_threshold (s : ClockState) (sysNow : ℚ) (a : AnimState) :
    (|a.second - posMod (epochMsNow s sysNow + s.tzOffsetMin * 60000) 60000| ≤ driftThreshMs →
      (phaseCorrectAll false s sysNow a).second = a.second) ∧
    (|a.minute - posMod (epochMsNow s sysNow + s.tzOffsetMin * 60000) 3600000| ≤ driftThreshMs →
      (phaseCorrectAll false s sysNow a).minute = a.minute) ∧
    (|a.hour - posMod (epochMsNow s sysNow + s.tzOffsetMin * 60000) 43200000| ≤ driftThreshMs →
      (phaseCorrectAll false s sysNow a).hour = a.hour) ∧
    (phaseCorrectAll true s sysNow a).second
      = posMod (epochMsNow s sysNow + s.tzOffsetMin * 60000) 60000 ∧
    (phaseCorrectAll true s sysNow a).minute
      = posMod (epochMsNow s sysNow + s.tzOffsetMin * 60000) 3600000 ∧
    (phaseCorrectAll true s sysNow a).hour
      = posMod (epochMsNow s sysNow + s.tzOffsetMin * 60000) 43200000 := by
  refine ⟨fun h => ?_, fun h => ?_, fun h => ?_, rfl, rfl, rfl⟩
  · have hdef : (phaseCorrectAll false s sysNow a).second
        = if driftThreshMs
            < |a.second - posMod (epochMsNow s sysNow + s.tzOffsetMin * 60000) 60000|
          then posMod (epochMsNow s sysNow + s.tzOffsetMin * 60000) 60000
          else a.second := rfl
    rw [hdef, if_neg (not_lt.mpr h)]
  · have hdef : (phaseCorrectAll false s sysNow a).minute
        = if driftThreshMs
            < |a.minute - posMod (epochMsNow s sysNow + s.tzOffsetMin * 60000) 3600000|
          then posMod (epochMsNow s sysNow + s.tzOffsetMin * 60000) 3600000
          else a.minute := rfl
    rw [hdef, if_neg (not_lt.mpr h)]
  · have hdef : (phaseCorrectAll false s sysNow a).hour
        = if driftThreshMs
            < |a.hour - posMod (epochMsNow s sysNow + s.tzOffsetMin * 60000) 43200000|
          then posMod (epochMsNow s sysNow + s.tzOffsetMin * 60000) 43200000
          else a.hour := rfl
    rw [hdef, if_neg (not_lt.mpr h)]

/-- Witness for C7: with the corrected time at 5 ms past a second boundary
and the live second cursor at 5, the passive correction keeps the cursor and
the forced one writes the target. -/
theorem phaseCorrect_threshold_witness :
    (phaseCorrectAll false (initialClockState 0) 5 ⟨5, 5, 5⟩).second
      = (⟨5, 5, 5⟩ : AnimState).second ∧
    (phaseCorrectAll true (initialClockState 0) 5 ⟨5, 5, 5⟩).second
      = posMod (epochMsNow (initialClockState 0) 5
          + (initialClockState 0).tzOffsetMin * 60000) 60000 := by
  have ht : epochMsNow (initialClockState 0) 5 + (initialClockState 0).tzOffsetMin * 60000
      = 5 := by
    norm_num [epochMsNow, initialClockState]
  have hle : |(⟨5, 5, 5⟩ : AnimState).second
      - posMod (epochMsNow (initialClockState 0) 5
          + (initialClockState 0).tzOffsetMin * 60000) 60000| ≤ driftThreshMs := by
    rw [ht, posMod_eq_floor _ _ (by norm_num)]
    norm_num [driftThreshMs]
  exact ⟨(phaseCorrect_threshold (initialClockState 0) 5 ⟨5, 5, 5⟩).1 hle,
         (phaseCorrect_threshold (initialClockState 0) 5 ⟨5, 5, 5⟩).2.2.2.1⟩

/-- C8: every run of the 1000 ms digital tick displays the truncation of
correctedNow() + 1000 (local time plus the aggregated server offset plus the
fixed late-fire compensation), defers the DOM update by exactly 1000 minus
the millisecond part of that displayed time, and renders the highlight
exactly when the displayed second is a multiple of 5, independently of the
host timezone. -/
theorem digitalTick_schedule (nowMs : ℤ) (offset : ℚ) (tz : ℤ) :
    (digitalTick nowMs offset tz).synchronizedTime
      = dateFromMs (correctedNowDigital nowMs offset + 1000) ∧
    (digitalTick nowMs offset tz).remainingMilliseconds
      = 1000 - (digitalTick nowMs offset tz).synchronizedTime % 1000 ∧
    ((digitalTick nowMs offset tz).highlight = true ↔
      (digitalTick nowMs offset tz).synchronizedTime / 1000 % 60 % 5 = 0) := by
  refine ⟨rfl, ?_, ?_⟩
  · show 1000 - dateGetMilliseconds (dateFromMs ((nowMs : ℚ) + offset + 1000)) tz = _
    rw [dateGetMilliseconds_tz]
    rfl
  · show (dateGetSeconds (dateFromMs ((nowMs : ℚ) + offset + 1000)) tz % 5 == 0) = true ↔ _
    rw [dateGetSeconds_tz]
    simp [beq_iff_eq]
    rfl

/-- Witness for C8 at a concrete tick with a fractional offset and a
nonzero host timezone. -/
theorem digitalTick_schedule_witness :
    (digitalTick 123456 (1/2) (-300)).synchronizedTime
      = dateFromMs (correctedNowDigital 123456 (1/2) + 1000) ∧
    (digitalTick 123456 (1/2) (-300)).remainingMilliseconds
      = 1000 - (digitalTick 123456 (1/2) (-300)).synchronizedTime % 1000 ∧
    ((digitalTick 123456 (1/2) (-300)).highlight = true ↔
      (digitalTick 123456 (1/2) (-300)).synchronizedTime / 1000 % 60 % 5 = 0) :=
  digitalTick_schedule 123456 (1/2) (-300)
